import Mathlib

/-!
Shallow embedding of the offline-first synchronization engine of XTodo
(`src/app/services/sync.service.ts`), together with theorems settling the
specification claims about it.

Conventions of the embedding:
* JS `Date` values are modelled as `Int` timestamps (milliseconds since the
  epoch); `new Date(y, m, d)` (midnight of a timestamp's calendar day) is
  `startOfDay`, and `toDateString()` equality (same calendar day) is equality
  of `t / msPerDay`.  Time-zone offsets are normalized away (UTC model).
* The RxJS `BehaviorSubject` fields of `SyncService` become fields of an
  explicit `SyncState` record; a method that mutates subjects becomes a
  function from `SyncState` to `SyncState`.
* Asynchronous control flow of one sync exchange is split at its suspension
  point: `syncWithServer` / `performSyncStart` model everything up to issuing
  the HTTP POST, and `completeSync` models the resolution of that POST with
  either a server response or a transport error.
* `startedExchanges` is a ghost trace field recording, in order, each HTTP
  POST issued to the sync endpoint (each entry of `performSync` past the
  lock).  It changes nothing about the modelled data and exists so that
  single-flight / FIFO claims are statable.
-/

namespace XTodo

/-! ## Dates (`src/app/models/task.ts` uses TS `Date`; modelled as Int ms) -/

/-- Milliseconds per day; `new Date(y, m, d)` truncation works at this
granularity. -/
def msPerDay : Int := 86400000

/-- `new Date(now.getFullYear(), now.getMonth(), now.getDate())`: midnight of
the calendar day containing `t` (UTC model: floor to a multiple of a day). -/
def startOfDay (t : Int) : Int := msPerDay * (t / msPerDay)

/-- `a.toDateString() === b.toDateString()`: the two timestamps fall on the
same calendar day. -/
def sameCalendarDay (a b : Int) : Bool := a / msPerDay == b / msPerDay

/-! ## Data model (`src/app/models/task.ts` plus the `userId` field that
`sync.service.ts` stamps onto every created entity) -/

inductive Priority where
  | low
  | medium
  | high
deriving DecidableEq, Repr

structure Task where
  id : String
  userId : String
  title : String
  description : Option String
  completed : Bool
  priority : Priority
  dueDate : Option Int
  projectId : Option String
  createdAt : Int
  updatedAt : Int
deriving DecidableEq, Repr

structure Project where
  id : String
  userId : String
  name : String
  description : Option String
  color : String
  createdAt : Int
  updatedAt : Int
deriving DecidableEq, Repr

/-- The authenticated user as exposed by
`AuthService.getCurrentUserSnapshot()`; only `id` is read by the sync
service. -/
structure User where
  id : String
  fullName : String
  email : String
deriving DecidableEq, Repr

/-! ## Mutation Log entries (`addPendingChange` in `sync.service.ts`) -/

inductive ChangeType where
  | task
  | project
deriving DecidableEq, Repr

inductive ChangeAction where
  | create
  | update
  | delete
deriving DecidableEq, Repr

/-- The `data` payload of a pending change: a full entity for create/update,
or `{ id }` for delete.  (The `_action` tag spread into `data` by
`addPendingChange` is carried by the `action` field of `PendingChange`.) -/
inductive ChangeData where
  | taskEntity (t : Task)
  | projectEntity (p : Project)
  | idOnly (id : String)
deriving DecidableEq, Repr

/-- `change.data.id`: every payload shape carries the entity id. -/
def ChangeData.entityId : ChangeData → String
  | .taskEntity t => t.id
  | .projectEntity p => p.id
  | .idOnly i => i

/-- One entry of the Mutation Log (`pendingChangesSubject`). -/
structure PendingChange where
  type : ChangeType
  action : ChangeAction
  data : ChangeData
  timestamp : Int
deriving DecidableEq, Repr

/-! ## Sync status and server exchange shapes -/

/-- `export type SyncStatus = 'idle' | 'syncing' | 'success' | 'error'`. -/
inductive SyncStatus where
  | idle
  | syncing
  | success
  | error
deriving DecidableEq, Repr

/-- An entry of `clientChangesConfirmed.tasks` / `.projects`: a fragment whose
`id` field is the only part read. -/
structure ConfirmedRef where
  id : String
deriving DecidableEq, Repr

structure ServerChanges where
  tasks : List Task
  projects : List Project
deriving DecidableEq, Repr

structure ClientChangesConfirmed where
  tasks : List ConfirmedRef
  projects : List ConfirmedRef
deriving DecidableEq, Repr

/-- The body of a successful `/sync-data` response. -/
structure ServerResponse where
  serverChanges : ServerChanges
  clientChangesConfirmed : ClientChangesConfirmed
  newLastSync : String
deriving DecidableEq, Repr

/-- A transport/network failure of the HTTP call. -/
structure SyncError where
  message : String
deriving DecidableEq, Repr

/-! ## Service state

The `BehaviorSubject`s and private fields of `SyncService`, as one record.
`startedExchanges` is the ghost trace of issued sync POSTs (see module
docstring). -/

structure SyncState where
  tasks : List Task
  projects : List Project
  pendingChanges : List PendingChange
  syncStatus : SyncStatus
  lastSync : Option String
  isSyncInProgress : Bool
  syncQueue : List Nat
  startedExchanges : List Nat
deriving DecidableEq, Repr

/-- The state right after construction: empty subjects, `idle` status, lock
free, no queue. -/
def initState : SyncState :=
  { tasks := []
    projects := []
    pendingChanges := []
    syncStatus := .idle
    lastSync := none
    isSyncInProgress := false
    syncQueue := []
    startedExchanges := [] }

/-! ## `getStatistics()` -/

structure Stats where
  total : Nat
  completed : Nat
  active : Nat
  overdue : Nat
  dueToday : Nat
deriving DecidableEq, Repr

/-- `task.dueDate && new Date(task.dueDate) < today` (a present `Date` is
always truthy). -/
def dueBefore (dueDate : Option Int) (today : Int) : Bool :=
  match dueDate with
  | none => false
  | some d => d < today

/-- `task.dueDate && new Date(task.dueDate).toDateString() ===
today.toDateString()`. -/
def dueSameDay (dueDate : Option Int) (today : Int) : Bool :=
  match dueDate with
  | none => false
  | some d => sameCalendarDay d today

/-- `getStatistics()` computed over the current task snapshot at clock time
`now`. -/
def getStatistics (tasks : List Task) (now : Int) : Stats :=
  let today := startOfDay now
  { total := tasks.length
    completed := (tasks.filter (fun t => t.completed)).length
    active := (tasks.filter (fun t => !t.completed)).length
    overdue := (tasks.filter (fun t => !t.completed && dueBefore t.dueDate today)).length
    dueToday := (tasks.filter (fun t => !t.completed && dueSameDay t.dueDate today)).length }

/-! ## JS `Map` as an insertion-ordered association list

`updateLocalData` builds `new Map(entities.map(e => [e.id, e]))`, calls
`map.set(id, entity)` per server entity, and reads back
`Array.from(map.values())`.  A JS `Map` preserves first-insertion order and
`set` on an existing key updates the value in place, so it is an association
list where `set` rewrites the entry holding the key (if any) and otherwise
appends. -/

/-- `map.set(k, v)` on an insertion-ordered map. -/
def mapInsert (m : List (String × α)) (k : String) (v : α) : List (String × α) :=
  if m.any (fun p => p.1 == k) then
    m.map (fun p => if p.1 == k then (k, v) else p)
  else
    m ++ [(k, v)]

/-- `entities.forEach(e => map.set(e.id, e))` starting from map `m`. -/
def mapSetAll (idOf : α → String) (m : List (String × α)) (l : List α) :
    List (String × α) :=
  l.foldl (fun m e => mapInsert m (idOf e) e) m

/-- `new Map(l.map(e => [e.id, e]))`. -/
def mapFromList (idOf : α → String) (l : List α) : List (String × α) :=
  mapSetAll idOf [] l

/-- The merge step of `updateLocalData` for one entity kind: load the local
list into a `Map` keyed by id, overwrite/insert every server entity, and read
the values back out. -/
def mergeEntities (idOf : α → String) (localList serverList : List α) : List α :=
  (mapSetAll idOf (mapFromList idOf localList) serverList).map (fun p => p.2)

/-- Lookup an entity by id in an entity list (`find` by id). -/
def lookupEntity (idOf : α → String) (l : List α) (k : String) : Option α :=
  l.find? (fun e => idOf e == k)

/-- `updateLocalData(serverChanges)`: merge server tasks and projects over the
local Entity Cache. -/
def updateLocalData (sc : ServerChanges) (s : SyncState) : SyncState :=
  { s with
    tasks := mergeEntities Task.id s.tasks sc.tasks
    projects := mergeEntities Project.id s.projects sc.projects }

/-! ## `clearConfirmedChanges` -/

/-- The confirmed-id set: `confirmed.tasks.map(t => t.id)` together with
`confirmed.projects.map(p => p.id)` (a JS `Set`, modelled by list
membership). -/
def confirmedIdSet (c : ClientChangesConfirmed) : List String :=
  c.tasks.map (fun t => t.id) ++ c.projects.map (fun p => p.id)

/-- `pending.filter(change => !confirmedIds.has(change.data.id))`. -/
def clearConfirmedChanges (c : ClientChangesConfirmed)
    (pending : List PendingChange) : List PendingChange :=
  pending.filter (fun change => !(confirmedIdSet c).contains change.data.entityId)

/-! ## Id generation and entity creation -/

/-- Character for one base-36 digit (`0`-`9` then `a`-`z`), as produced by JS
`Number.prototype.toString(36)`. -/
def base36Char (d : Nat) : Char :=
  if d < 10 then Char.ofNat (48 + d) else Char.ofNat (87 + d)

/-- Digit expansion worker: structurally recursive on `fuel`, consumed once
per emitted digit (any `fuel ≥ log₃₆ n` yields the exact expansion). -/
def toBase36Go (fuel n : Nat) : List Char :=
  match fuel with
  | 0 => [base36Char n]
  | fuel2 + 1 =>
    if n < 36 then [base36Char n]
    else toBase36Go fuel2 (n / 36) ++ [base36Char (n % 36)]

/-- Digits of `n` in base 36, most significant first (JS
`n.toString(36)` for a natural number). -/
def toBase36 (n : Nat) : List Char := toBase36Go n n

/-- `generateId()`: `Date.now().toString(36) + Math.random().toString(36).substr(2)`.
`nowMs` is the `Date.now()` reading and `randFrac` the base-36 fractional
digits of the `Math.random()` draw (what remains after `substr(2)` strips the
leading `0.`). -/
def generateId (nowMs : Nat) (randFrac : String) : String :=
  String.mk (toBase36 nowMs) ++ randFrac

/-- The caller-supplied fields of `addTask`
(`Omit<Task, 'id' | 'createdAt' | 'updatedAt' | 'userId'>`). -/
structure TaskFields where
  title : String
  description : Option String
  completed : Bool
  priority : Priority
  dueDate : Option Int
  projectId : Option String
deriving DecidableEq, Repr

/-- The caller-supplied fields of `addProject`. -/
structure ProjectFields where
  name : String
  description : Option String
  color : String
deriving DecidableEq, Repr

/-- The `newTask` literal built inside `addTask`. -/
def mkNewTask (u : User) (nowMs : Nat) (randFrac : String) (f : TaskFields) : Task :=
  { id := generateId nowMs randFrac
    userId := u.id
    title := f.title
    description := f.description
    completed := f.completed
    priority := f.priority
    dueDate := f.dueDate
    projectId := f.projectId
    createdAt := (nowMs : Int)
    updatedAt := (nowMs : Int) }

/-- The `newProject` literal built inside `addProject`. -/
def mkNewProject (u : User) (nowMs : Nat) (randFrac : String) (f : ProjectFields) : Project :=
  { id := generateId nowMs randFrac
    userId := u.id
    name := f.name
    description := f.description
    color := f.color
    createdAt := (nowMs : Int)
    updatedAt := (nowMs : Int) }

/-- `addPendingChange(type, action, data)`: wrap the payload with the action
tag and a timestamp and append it to the Mutation Log. -/
def addPendingChange (type : ChangeType) (action : ChangeAction)
    (data : ChangeData) (nowMs : Nat) (pending : List PendingChange) :
    List PendingChange :=
  pending ++ [{ type := type, action := action, data := data, timestamp := (nowMs : Int) }]

/-- `addTask(fields)` at clock `nowMs` with random draw `randFrac`, given the
current authenticated-user snapshot.  Throws (`.error`) when no user is
present; otherwise appends the new task to the cache and a create mutation to
the log, returning the task. -/
def addTask (user : Option User) (nowMs : Nat) (randFrac : String)
    (f : TaskFields) (s : SyncState) : Except String (Task × SyncState) :=
  match user with
  | none => .error "User must be authenticated to add tasks"
  | some u =>
    let newTask := mkNewTask u nowMs randFrac f
    .ok (newTask,
      { s with
        tasks := s.tasks ++ [newTask]
        pendingChanges :=
          addPendingChange .task .create (.taskEntity newTask) nowMs s.pendingChanges })

/-- `addProject(fields)`, analogous to `addTask`. -/
def addProject (user : Option User) (nowMs : Nat) (randFrac : String)
    (f : ProjectFields) (s : SyncState) : Except String (Project × SyncState) :=
  match user with
  | none => .error "User must be authenticated to add projects"
  | some u =>
    let newProject := mkNewProject u nowMs randFrac f
    .ok (newProject,
      { s with
        projects := s.projects ++ [newProject]
        pendingChanges :=
          addPendingChange .project .create (.projectEntity newProject) nowMs s.pendingChanges })

/-- `deleteProject(id)` at clock `nowMs`: returns `false` and leaves the state
unchanged when no project has the id; otherwise filters the project out and
logs a delete mutation carrying only the id. -/
def deleteProject (id : String) (nowMs : Nat) (s : SyncState) :
    Bool × SyncState :=
  if s.projects.any (fun p => p.id == id) then
    (true,
      { s with
        projects := s.projects.filter (fun p => !(p.id == id))
        pendingChanges :=
          addPendingChange .project .delete (.idOnly id) nowMs s.pendingChanges })
  else
    (false, s)

/-! ## The sync exchange (`syncWithServer` / `performSync` /
`processNextQueuedSync`)

One exchange is split at its suspension point.  `performSyncStart` is the
synchronous prefix of `performSync`: take the lock, set status `syncing`, and
issue the POST (recorded in the ghost trace).  `completeSync` is the
resolution of that POST: on success the `tap` branch (merge, confirm, advance
last-sync, status `success`), on failure the `catchError` branch (status
`error`), and in both cases the `finalize` branch (release the lock, run
`processNextQueuedSync`). -/

def performSyncStart (rid : Nat) (s : SyncState) : SyncState :=
  { s with
    isSyncInProgress := true
    syncStatus := .syncing
    startedExchanges := s.startedExchanges ++ [rid] }

/-- `syncWithServer()` for request `rid`: queue the request when an exchange
is in flight, otherwise start `performSync`. -/
def syncWithServer (rid : Nat) (s : SyncState) : SyncState :=
  if s.isSyncInProgress then
    { s with syncQueue := s.syncQueue ++ [rid] }
  else
    performSyncStart rid s

/-- `processNextQueuedSync()`: pop the queue head (if any) and run its
deferred `performSync`. -/
def processNextQueuedSync (s : SyncState) : SyncState :=
  match s.syncQueue with
  | [] => s
  | rid :: rest => performSyncStart rid { s with syncQueue := rest }

/-- The `tap` / `catchError` body applied when the POST resolves with
`result`. -/
def applySyncResult (result : Except SyncError ServerResponse) (s : SyncState) :
    SyncState :=
  match result with
  | .ok resp =>
    let merged := updateLocalData resp.serverChanges s
    { merged with
      pendingChanges :=
        clearConfirmedChanges resp.clientChangesConfirmed merged.pendingChanges
      lastSync := some resp.newLastSync
      syncStatus := .success }
  | .error _ => { s with syncStatus := .error }

/-- Resolution of an in-flight exchange: result handling, then `finalize`
(release the lock and process the queue). -/
def completeSync (result : Except SyncError ServerResponse) (s : SyncState) :
    SyncState :=
  processNextQueuedSync { applySyncResult result s with isSyncInProgress := false }

/-! ## `loadFromStorage`

Local storage is modelled as an association list from keys to stored values,
each stored value abstracted by the outcome of `JSON.parse` (+ date revival)
on its serialized content; `none` for an absent key.  The user-specific keys
come from `getStorageKeys()`. -/

/-- Parse outcome of one stored serialized value. -/
inductive StoredValue where
  | tasksVal (ts : List Task)
  | projectsVal (ps : List Project)
  | corrupt (raw : String)
deriving DecidableEq, Repr

def Store := List (String × StoredValue)

def tasksKey (userId : String) : String := "xtodo_tasks_" ++ userId
def projectsKey (userId : String) : String := "xtodo_projects_" ++ userId

def storeGet (st : Store) (k : String) : Option StoredValue :=
  (List.find? (fun p => p.1 == k) st).map (fun p => p.2)

/-- Reading the tasks key: an absent key defaults to `'[]'`, which parses to
the empty list; a present key yields its parse outcome. -/
def readTasks (st : Store) (userId : String) : Except String (List Task) :=
  match storeGet st (tasksKey userId) with
  | none => .ok []
  | some (.tasksVal ts) => .ok ts
  | some (.projectsVal _) => .error "unexpected shape"
  | some (.corrupt raw) => .error raw

def readProjects (st : Store) (userId : String) : Except String (List Project) :=
  match storeGet st (projectsKey userId) with
  | none => .ok []
  | some (.projectsVal ps) => .ok ps
  | some (.tasksVal _) => .error "unexpected shape"
  | some (.corrupt raw) => .error raw

/-- `loadFromStorage()`: parse both keys inside one `try`; only when both
parse do the subjects get the loaded collections.  The `catch` branch merely
logs: the state and the store are left exactly as they were. -/
def loadFromStorage (userId : String) (st : Store) (s : SyncState) :
    SyncState × Store :=
  match readTasks st userId with
  | .error _ => (s, st)
  | .ok ts =>
    match readProjects st userId with
    | .error _ => (s, st)
    | .ok ps => ({ s with tasks := ts, projects := ps }, st)

/-! ## Concrete sample data (used to instantiate theorems on closed inputs) -/

def sampleUser : User :=
  { id := "u1", fullName := "Jane Doe", email := "jane@example.com" }

def taskA : Task :=
  { id := "a", userId := "u1", title := "local A", description := none,
    completed := false, priority := .low, dueDate := none, projectId := none,
    createdAt := 0, updatedAt := 0 }

def taskB : Task :=
  { id := "b", userId := "u1", title := "local B", description := none,
    completed := false, priority := .low, dueDate := none, projectId := none,
    createdAt := 0, updatedAt := 0 }

/-- A server copy of the entity with id `"b"`, differing from `taskB`. -/
def taskBServer : Task :=
  { id := "b", userId := "u1", title := "server B", description := none,
    completed := true, priority := .high, dueDate := none, projectId := none,
    createdAt := 0, updatedAt := 5 }

/-- A server entity whose id has no local match. -/
def taskCServer : Task :=
  { id := "c", userId := "u1", title := "server C", description := none,
    completed := false, priority := .medium, dueDate := none, projectId := none,
    createdAt := 0, updatedAt := 5 }

def projectP : Project :=
  { id := "p", userId := "u1", name := "P", description := none,
    color := "#3B82F6", createdAt := 0, updatedAt := 0 }

def projectPServer : Project :=
  { id := "p", userId := "u1", name := "P server", description := none,
    color := "#10B981", createdAt := 0, updatedAt := 5 }

/-- A task that references `projectP`. -/
def taskInP : Task :=
  { id := "tp", userId := "u1", title := "in P", description := none,
    completed := false, priority := .low, dueDate := none,
    projectId := some "p", createdAt := 0, updatedAt := 0 }

def changeA : PendingChange :=
  { type := .task, action := .create, data := .taskEntity taskA, timestamp := 0 }

def changeB : PendingChange :=
  { type := .task, action := .update, data := .taskEntity taskB, timestamp := 1 }

def changeDelP : PendingChange :=
  { type := .project, action := .delete, data := .idOnly "p", timestamp := 2 }

/-- A state with data in every component and an exchange in flight with one
queued request. -/
def sampleBusyState : SyncState :=
  { tasks := [taskA, taskB]
    projects := [projectP]
    pendingChanges := [changeA, changeB, changeDelP]
    syncStatus := .syncing
    lastSync := some "2026-01-01T00:00:00Z"
    isSyncInProgress := true
    syncQueue := [7]
    startedExchanges := [5] }

/-- The same state with an empty queue. -/
def sampleBusyStateNoQueue : SyncState :=
  { sampleBusyState with syncQueue := [] }

/-- A state with data but no exchange in flight. -/
def sampleIdleState : SyncState :=
  { sampleBusyState with
    isSyncInProgress := false
    syncQueue := []
    syncStatus := .idle }

def sampleError : SyncError := { message := "Http failure response" }

def sampleResponse : ServerResponse :=
  { serverChanges := { tasks := [taskBServer, taskCServer], projects := [projectPServer] }
    clientChangesConfirmed := { tasks := [{ id := "a" }], projects := [] }
    newLastSync := "2026-01-02T00:00:00Z" }

def sampleConfirmed : ClientChangesConfirmed :=
  { tasks := [{ id := "a" }, { id := "b" }], projects := [{ id := "p" }] }

/-- Caller fields used by the creation examples. -/
def sampleTaskFields : TaskFields :=
  { title := "first", description := none, completed := false,
    priority := .medium, dueDate := none, projectId := none }

def sampleTaskFields2 : TaskFields :=
  { title := "second", description := none, completed := false,
    priority := .medium, dueDate := none, projectId := none }

def sampleProjectFields : ProjectFields :=
  { name := "New project", description := none, color := "#FF5733" }

/-- Clock time for the statistics example: 01:23:20 into day 2. -/
def statsNow : Int := 2 * 86400000 + 5000000

def statsTaskYesterday : Task :=
  { id := "s1", userId := "u1", title := "yesterday", description := none,
    completed := false, priority := .low, dueDate := some (86400000 + 100),
    projectId := none, createdAt := 0, updatedAt := 0 }

def statsTaskToday : Task :=
  { id := "s2", userId := "u1", title := "today", description := none,
    completed := false, priority := .low, dueDate := some (2 * 86400000 + 50),
    projectId := none, createdAt := 0, updatedAt := 0 }

def statsTaskDoneYesterday : Task :=
  { id := "s3", userId := "u1", title := "done", description := none,
    completed := true, priority := .low, dueDate := some (86400000 + 100),
    projectId := none, createdAt := 0, updatedAt := 0 }

def statsExampleTasks : List Task :=
  [statsTaskYesterday, statsTaskToday, statsTaskDoneYesterday]

/-- A store holding a corrupted serialized value under the tasks key of user
`"u1"`. -/
def corruptStore : Store :=
  [(tasksKey "u1", .corrupt "corrupted-json"),
   (projectsKey "u1", .projectsVal [projectP])]

/-- A quiet state holding one project and one task referencing it. -/
def sampleProjState : SyncState :=
  { initState with tasks := [taskInP], projects := [projectP] }

/-- First of two rapid `addTask` calls that observe the same `Date.now()`
reading and the same `Math.random()` draw. -/
def cxTask1 : Task := mkNewTask sampleUser 1700000000000 "k7q3" sampleTaskFields

/-- Second of the two rapid calls: a genuinely different entity (different
title) created by a distinct operation. -/
def cxTask2 : Task := mkNewTask sampleUser 1700000000000 "k7q3" sampleTaskFields2

/-- The state after the first of the two rapid `addTask` calls. -/
def cxState1 : SyncState :=
  { initState with
    tasks := [cxTask1]
    pendingChanges :=
      [{ type := .task, action := .create, data := .taskEntity cxTask1,
         timestamp := 1700000000000 }] }

/-- The second rapid call with a different `Math.random()` draw. -/
def cxTask2b : Task := mkNewTask sampleUser 1700000000000 "z9aa" sampleTaskFields2

/-- The state after the first call and a second call whose random draw
differs. -/
def cxState2b : SyncState :=
  { cxState1 with
    tasks := cxState1.tasks ++ [cxTask2b]
    pendingChanges := cxState1.pendingChanges ++
      [{ type := .task, action := .create, data := .taskEntity cxTask2b,
         timestamp := 1700000000000 }] }

/-- The state after both calls. -/
def cxState2 : SyncState :=
  { cxState1 with
    tasks := [cxTask1, cxTask2]
    pendingChanges := cxState1.pendingChanges ++
      [{ type := .task, action := .create, data := .taskEntity cxTask2,
         timestamp := 1700000000000 }] }

/-! # Lemmas about the JS `Map` model -/

theorem find?_map_replace {α : Type} (m : List (String × α)) (k : String) (v : α)
    (h : m.any (fun p => p.1 == k) = true) :
    (m.map (fun p => if p.1 == k then (k, v) else p)).find? (fun p => p.1 == k)
      = some (k, v) := by
  induction m with
  | nil => simp at h
  | cons p ps ih =>
    rw [List.map_cons]
    by_cases hp : p.1 = k
    · have hhead : (if (p.1 == k) = true then (k, v) else p) = (k, v) :=
        if_pos (beq_iff_eq.mpr hp)
      rw [hhead, List.find?_cons_of_pos _ (by simp)]
    · have hp' : (p.1 == k) = false := beq_eq_false_iff_ne.mpr hp
      have hhead : (if (p.1 == k) = true then (k, v) else p) = p :=
        if_neg (by simp [hp'])
      rw [hhead, List.find?_cons_of_neg _ (by simp [hp'])]
      apply ih
      simpa [List.any_cons, hp'] using h

theorem find?_map_unrelated {α : Type} (m : List (String × α)) (k k' : String)
    (v : α) (h : k' ≠ k) :
    (m.map (fun p => if p.1 == k then (k, v) else p)).find? (fun p => p.1 == k')
      = m.find? (fun p => p.1 == k') := by
  induction m with
  | nil => rfl
  | cons p ps ih =>
    rw [List.map_cons]
    by_cases hp : p.1 = k
    · have hhead : (if (p.1 == k) = true then (k, v) else p) = (k, v) :=
        if_pos (beq_iff_eq.mpr hp)
      have hk : (k == k') = false := beq_eq_false_iff_ne.mpr (Ne.symm h)
      have hpk : (p.1 == k') = false := by
        rw [hp]; exact hk
      rw [hhead, List.find?_cons_of_neg _ (by simp [hk]),
          List.find?_cons_of_neg _ (by simp [hpk])]
      exact ih
    · have hhead : (if (p.1 == k) = true then (k, v) else p) = p :=
        if_neg (by simp [beq_eq_false_iff_ne.mpr hp])
      rw [hhead]
      cases hpk : (p.1 == k') with
      | true =>
        rw [List.find?_cons_of_pos _ (by simp [hpk]),
            List.find?_cons_of_pos _ (by simp [hpk])]
      | false =>
        rw [List.find?_cons_of_neg _ (by simp [hpk]),
            List.find?_cons_of_neg _ (by simp [hpk])]
        exact ih

theorem mapInsert_find?_self {α : Type} (m : List (String × α)) (k : String) (v : α) :
    (mapInsert m k v).find? (fun p => p.1 == k) = some (k, v) := by
  unfold mapInsert
  by_cases hany : m.any (fun p => p.1 == k) = true
  · rw [if_pos hany]
    exact find?_map_replace m k v hany
  · rw [if_neg hany]
    rw [List.find?_append]
    have hnone : m.find? (fun p => p.1 == k) = none := by
      rw [List.find?_eq_none]
      intro p hp hcontra
      exact hany (List.any_eq_true.mpr ⟨p, hp, hcontra⟩)
    simp [hnone, List.find?]

theorem mapInsert_find?_ne {α : Type} (m : List (String × α)) (k k' : String)
    (v : α) (h : k' ≠ k) :
    (mapInsert m k v).find? (fun p => p.1 == k') = m.find? (fun p => p.1 == k') := by
  unfold mapInsert
  by_cases hany : m.any (fun p => p.1 == k) = true
  · rw [if_pos hany]
    exact find?_map_unrelated m k k' v h
  · rw [if_neg hany]
    rw [List.find?_append]
    have hk : (k == k') = false := beq_eq_false_iff_ne.mpr (Ne.symm h)
    simp [List.find?, hk]

theorem mapSetAll_find? {α : Type} (idOf : α → String) (l : List α)
    (m : List (String × α)) (k : String) :
    (mapSetAll idOf m l).find? (fun p => p.1 == k) =
      match l.reverse.find? (fun e => idOf e == k) with
      | some e => some (k, e)
      | none => m.find? (fun p => p.1 == k) := by
  induction l generalizing m with
  | nil => rfl
  | cons e l' ih =>
    have hstep : mapSetAll idOf m (e :: l') = mapSetAll idOf (mapInsert m (idOf e) e) l' := rfl
    rw [hstep, ih, List.reverse_cons, List.find?_append]
    cases hl : l'.reverse.find? (fun x => idOf x == k) with
    | some e' => simp
    | none =>
      by_cases he : idOf e = k
      · have : (idOf e == k) = true := beq_iff_eq.mpr he
        simp only [List.find?, this, Option.none_or]
        rw [← he]
        exact mapInsert_find?_self m (idOf e) e
      · have : (idOf e == k) = false := beq_eq_false_iff_ne.mpr he
        simp only [List.find?, this, Option.none_or]
        exact mapInsert_find?_ne m (idOf e) k e (fun hk => he hk.symm)

theorem reverse_find?_eq_of_nodup {α : Type} (idOf : α → String) (l : List α)
    (k : String) (h : (l.map idOf).Nodup) :
    l.reverse.find? (fun e => idOf e == k) = l.find? (fun e => idOf e == k) := by
  induction l with
  | nil => rfl
  | cons e l' ih =>
    have hnotin : idOf e ∉ l'.map idOf := by
      simp only [List.map_cons, List.nodup_cons] at h
      exact h.1
    have hnd : (l'.map idOf).Nodup := by
      simp only [List.map_cons, List.nodup_cons] at h
      exact h.2
    rw [List.reverse_cons, List.find?_append, ih hnd]
    by_cases he : idOf e = k
    · have hfind : l'.find? (fun x => idOf x == k) = none := by
        rw [List.find?_eq_none]
        intro x hx hcontra
        have : idOf x = k := beq_iff_eq.mp hcontra
        exact hnotin (by rw [he, ← this]; exact List.mem_map_of_mem idOf hx)
      have : (idOf e == k) = true := beq_iff_eq.mpr he
      simp [List.find?, hfind, this]
    · have : (idOf e == k) = false := beq_eq_false_iff_ne.mpr he
      simp [List.find?, this]

theorem mapInsert_coherent {α : Type} (idOf : α → String)
    (m : List (String × α)) (k : String) (v : α)
    (h : ∀ p ∈ m, idOf p.2 = p.1) (hv : idOf v = k) :
    ∀ p ∈ mapInsert m k v, idOf p.2 = p.1 := by
  unfold mapInsert
  by_cases hany : m.any (fun p => p.1 == k) = true
  · rw [if_pos hany]
    intro p hp
    obtain ⟨q, hq, rfl⟩ := List.mem_map.mp hp
    by_cases hqk : q.1 = k
    · rw [if_pos (beq_iff_eq.mpr hqk)]
      exact hv
    · rw [if_neg (by simp [beq_eq_false_iff_ne.mpr hqk])]
      exact h q hq
  · rw [if_neg hany]
    intro p hp
    rcases List.mem_append.mp hp with hin | hin
    · exact h p hin
    · rw [List.mem_singleton.mp hin]
      exact hv

theorem mapSetAll_coherent {α : Type} (idOf : α → String) (l : List α)
    (m : List (String × α)) (h : ∀ p ∈ m, idOf p.2 = p.1) :
    ∀ p ∈ mapSetAll idOf m l, idOf p.2 = p.1 := by
  induction l generalizing m with
  | nil => exact h
  | cons e l' ih =>
    exact ih (mapInsert m (idOf e) e) (mapInsert_coherent idOf m (idOf e) e h rfl)

theorem map_values_find? {α : Type} (idOf : α → String)
    (m : List (String × α)) (k : String) (h : ∀ p ∈ m, idOf p.2 = p.1) :
    (m.map (fun p => p.2)).find? (fun e => idOf e == k)
      = Option.map (fun p => p.2) (m.find? (fun p => p.1 == k)) := by
  induction m with
  | nil => rfl
  | cons p ps ih =>
    rw [List.map_cons]
    have hhead : idOf p.2 = p.1 := h p (List.mem_cons_self p ps)
    cases hpk : (p.1 == k) with
    | true =>
      rw [List.find?_cons_of_pos _ (by simp [hhead, hpk]),
          List.find?_cons_of_pos _ (by simp [hpk])]
      rfl
    | false =>
      rw [List.find?_cons_of_neg _ (by simp [hhead, hpk]),
          List.find?_cons_of_neg _ (by simp [hpk])]
      exact ih (fun q hq => h q (List.mem_cons_of_mem p hq))

/-- The central characterization of the merge step: the merged entry for id
`k` is the last server entity with that id when one exists, and otherwise the
entry of the local id map. -/
theorem mergeEntities_find? {α : Type} (idOf : α → String)
    (localL serverL : List α) (k : String) :
    lookupEntity idOf (mergeEntities idOf localL serverL) k =
      match serverL.reverse.find? (fun e => idOf e == k) with
      | some e => some e
      | none =>
        Option.map (fun p => p.2)
          ((mapFromList idOf localL).find? (fun p => p.1 == k)) := by
  unfold lookupEntity mergeEntities mapFromList
  rw [map_values_find? idOf _ k
    (mapSetAll_coherent idOf serverL _
      (mapSetAll_coherent idOf localL [] (by intro p hp; simp at hp)))]
  rw [mapSetAll_find?]
  cases serverL.reverse.find? (fun e => idOf e == k) with
  | some e => rfl
  | none => rfl

theorem mapFromList_find? {α : Type} (idOf : α → String) (l : List α)
    (k : String) (h : (l.map idOf).Nodup) :
    (mapFromList idOf l).find? (fun p => p.1 == k)
      = Option.map (fun e => (k, e)) (l.find? (fun e => idOf e == k)) := by
  unfold mapFromList
  rw [mapSetAll_find?, reverse_find?_eq_of_nodup idOf l k h]
  cases l.find? (fun e => idOf e == k) with
  | some e => rfl
  | none => rfl

theorem find?_eq_some_of_nodup_mem {α : Type} (idOf : α → String)
    {l : List α} {x : α} {k : String} (h : (l.map idOf).Nodup)
    (hx : x ∈ l) (hk : idOf x = k) :
    l.find? (fun e => idOf e == k) = some x := by
  induction l with
  | nil => simp at hx
  | cons y ys ih =>
    have hnotin : idOf y ∉ ys.map idOf := by
      simp only [List.map_cons, List.nodup_cons] at h
      exact h.1
    have hnd : (ys.map idOf).Nodup := by
      simp only [List.map_cons, List.nodup_cons] at h
      exact h.2
    rcases List.mem_cons.mp hx with rfl | hmem
    · exact List.find?_cons_of_pos _ (by simp [hk])
    · have hy : idOf y ≠ k := by
        intro hcontra
        exact hnotin (by rw [hcontra, ← hk]; exact List.mem_map_of_mem idOf hmem)
      rw [List.find?_cons_of_neg _ (by simp [beq_eq_false_iff_ne.mpr hy])]
      exact ih hnd hmem

theorem reverse_find?_isSome_of_mem {α : Type} (idOf : α → String)
    {l : List α} {x : α} {k : String} (hx : x ∈ l) (hk : idOf x = k) :
    ∃ e, l.reverse.find? (fun e => idOf e == k) = some e := by
  cases hfind : l.reverse.find? (fun e => idOf e == k) with
  | some e => exact ⟨e, rfl⟩
  | none =>
    rw [List.find?_eq_none] at hfind
    exact absurd (by simp [hk] : ((fun e => idOf e == k) x = true))
      (by simpa using hfind x (List.mem_reverse.mpr hx))

/-- Generic form of the merge-step characterization used by the claim about
`updateLocalData`: remote wins for ids in the payload (insert if new), ids
outside the payload are untouched, and the entry for a payload id does not
depend on the local list. -/
theorem mergeEntities_spec {α : Type} (idOf : α → String)
    (localL localL' serverL : List α) (k : String) (x : α) :
    ((serverL.map idOf).Nodup → x ∈ serverL → idOf x = k →
      lookupEntity idOf (mergeEntities idOf localL serverL) k = some x) ∧
    ((∀ y ∈ serverL, idOf y ≠ k) → (localL.map idOf).Nodup →
      lookupEntity idOf (mergeEntities idOf localL serverL) k
        = lookupEntity idOf localL k) ∧
    ((∃ y ∈ serverL, idOf y = k) →
      lookupEntity idOf (mergeEntities idOf localL serverL) k
        = lookupEntity idOf (mergeEntities idOf localL' serverL) k) := by
  refine ⟨?_, ?_, ?_⟩
  · intro hnd hx hk
    have hrevnd : (serverL.reverse.map idOf).Nodup := by
      rw [List.map_reverse]
      exact List.nodup_reverse.mpr hnd
    have hfind : serverL.reverse.find? (fun e => idOf e == k) = some x :=
      find?_eq_some_of_nodup_mem idOf hrevnd (List.mem_reverse.mpr hx) hk
    rw [mergeEntities_find?, hfind]
  · intro hnone hnd
    have hfind : serverL.reverse.find? (fun e => idOf e == k) = none := by
      rw [List.find?_eq_none]
      intro y hy
      simp [beq_eq_false_iff_ne.mpr (hnone y (List.mem_reverse.mp hy))]
    rw [mergeEntities_find?, hfind, mapFromList_find? idOf localL k hnd]
    unfold lookupEntity
    cases localL.find? (fun e => idOf e == k) with
    | some e => rfl
    | none => rfl
  · intro hex
    obtain ⟨y, hy, hk⟩ := hex
    obtain ⟨e, he⟩ := reverse_find?_isSome_of_mem idOf hy hk
    rw [mergeEntities_find?, mergeEntities_find?, he]

/-! ## Auxiliary facts about ids and calendar days -/

theorem string_append_left_cancel (a b c : String) (h : a ++ b = a ++ c) :
    b = c := by
  have hd : (a ++ b).data = (a ++ c).data := by rw [h]
  simp [String.data_append] at hd
  exact String.ext hd

theorem generateId_ne_of_ne_randFrac (nowMs : Nat) (r1 r2 : String)
    (h : r1 ≠ r2) : generateId nowMs r1 ≠ generateId nowMs r2 := by
  intro hc
  exact h (string_append_left_cancel (String.mk (toBase36 nowMs)) r1 r2 hc)

/-- `toDateString()` equality against midnight-of-`now` is exactly membership
in the half-open interval from start-of-today to start-of-tomorrow. -/
theorem sameCalendarDay_startOfDay (d n : Int) :
    sameCalendarDay d (startOfDay n)
      = decide (startOfDay n ≤ d ∧ d < startOfDay n + msPerDay) := by
  unfold sameCalendarDay startOfDay msPerDay
  rw [Bool.eq_iff_iff]
  simp only [beq_iff_eq, decide_eq_true_eq]
  omega

/-! # Claim theorems -/

/-- C1: when the HTTP call of a sync exchange fails, the Mutation Log and the
Entity Cache (tasks and projects) after the attempt equal their values before
it, so the attempted mutations remain pending; the lock is released (directly
when the queue is empty) and a queued attempt still fires (it is started as
part of completing the failed exchange). -/
theorem sync_failure_preserves_state (s : SyncState) (e : SyncError) :
    (completeSync (.error e) s).pendingChanges = s.pendingChanges ∧
    (completeSync (.error e) s).tasks = s.tasks ∧
    (completeSync (.error e) s).projects = s.projects ∧
    (s.syncQueue = [] →
      (completeSync (.error e) s).isSyncInProgress = false ∧
      (completeSync (.error e) s).syncQueue = []) ∧
    (∀ r rest, s.syncQueue = r :: rest →
      (completeSync (.error e) s).startedExchanges = s.startedExchanges ++ [r] ∧
      (completeSync (.error e) s).syncQueue = rest) := by
  obtain ⟨tk, pj, pd, st, ls, ip, q, ex⟩ := s
  cases q with
  | nil =>
    simp [completeSync, applySyncResult, processNextQueuedSync, performSyncStart]
  | cons r rest =>
    simp [completeSync, applySyncResult, processNextQueuedSync, performSyncStart]

/-- Witness for C1 at a concrete busy state with pending mutations and one
queued request. -/
theorem sync_failure_preserves_state_witness :
    (completeSync (.error sampleError) sampleBusyState).pendingChanges
        = sampleBusyState.pendingChanges ∧
    (completeSync (.error sampleError) sampleBusyState).tasks
        = sampleBusyState.tasks ∧
    (completeSync (.error sampleError) sampleBusyState).startedExchanges
        = sampleBusyState.startedExchanges ++ [7] :=
  ⟨(sync_failure_preserves_state sampleBusyState sampleError).1,
   (sync_failure_preserves_state sampleBusyState sampleError).2.1,
   ((sync_failure_preserves_state sampleBusyState sampleError).2.2.2.2 7 [] rfl).1⟩

/-- C3: a sync request arriving while an exchange is in flight starts no new
exchange and is appended to the queue (not dropped); when an exchange
completes, exactly the queue head is started next (FIFO); two requests issued
before the first resolves yield exactly the exchange trace `[1, 2]`, i.e. two
sequential exchanges and never two concurrent ones. -/
theorem single_flight_fifo (s : SyncState) (rid r : Nat) (rest : List Nat)
    (res res2 : Except SyncError ServerResponse) :
    (s.isSyncInProgress = true →
      (syncWithServer rid s).startedExchanges = s.startedExchanges ∧
      (syncWithServer rid s).syncQueue = s.syncQueue ++ [rid]) ∧
    (s.syncQueue = r :: rest →
      (completeSync res s).startedExchanges = s.startedExchanges ++ [r] ∧
      (completeSync res s).syncQueue = rest) ∧
    ((completeSync res2 (completeSync res
        (syncWithServer 2 (syncWithServer 1 initState)))).startedExchanges = [1, 2] ∧
     (completeSync res2 (completeSync res
        (syncWithServer 2 (syncWithServer 1 initState)))).syncQueue = [] ∧
     (completeSync res2 (completeSync res
        (syncWithServer 2 (syncWithServer 1 initState)))).isSyncInProgress = false) := by
  obtain ⟨tk, pj, pd, st, ls, ip, q, ex⟩ := s
  refine ⟨?_, ?_, ?_⟩
  · intro hip
    simp only at hip
    subst hip
    simp [syncWithServer]
  · intro hq
    simp only at hq
    subst hq
    cases res with
    | ok resp =>
      simp [completeSync, applySyncResult, processNextQueuedSync,
        performSyncStart, updateLocalData]
    | error err =>
      simp [completeSync, applySyncResult, processNextQueuedSync,
        performSyncStart]
  · cases res with
    | ok resp =>
      cases res2 with
      | ok resp2 =>
        simp [completeSync, applySyncResult, processNextQueuedSync,
          performSyncStart, syncWithServer, initState, updateLocalData]
      | error err2 =>
        simp [completeSync, applySyncResult, processNextQueuedSync,
          performSyncStart, syncWithServer, initState, updateLocalData]
    | error err =>
      cases res2 with
      | ok resp2 =>
        simp [completeSync, applySyncResult, processNextQueuedSync,
          performSyncStart, syncWithServer, initState, updateLocalData]
      | error err2 =>
        simp [completeSync, applySyncResult, processNextQueuedSync,
          performSyncStart, syncWithServer, initState]

/-- Witness for C3 at a concrete busy state with queue `[7]`. -/
theorem single_flight_fifo_witness :
    ((syncWithServer 9 sampleBusyState).startedExchanges
        = sampleBusyState.startedExchanges ∧
     (syncWithServer 9 sampleBusyState).syncQueue
        = sampleBusyState.syncQueue ++ [9]) ∧
    ((completeSync (.error sampleError) sampleBusyState).startedExchanges
        = sampleBusyState.startedExchanges ++ [7]) :=
  ⟨(single_flight_fifo sampleBusyState 9 7 []
      (.error sampleError) (.error sampleError)).1 rfl,
   ((single_flight_fifo sampleBusyState 9 7 []
      (.error sampleError) (.error sampleError)).2.1 rfl).1⟩

/-- C5 counterexample: the status does NOT return to `idle` after an exchange
completes.  After a full successful exchange from the initial state the
status is `success`, and a second exchange then moves it straight to
`syncing`; `idle` is never re-entered. -/
theorem sync_status_idle_counterexample :
    (completeSync (.ok sampleResponse) (syncWithServer 1 initState)).syncStatus
        = .success ∧
    (completeSync (.ok sampleResponse) (syncWithServer 1 initState)).syncStatus
        ≠ .idle ∧
    (syncWithServer 2 (completeSync (.ok sampleResponse)
        (syncWithServer 1 initState))).syncStatus = .syncing := by
  refine ⟨rfl, ?_, rfl⟩
  decide

/-- C5 (amended): the status moves `idle -> syncing` when an exchange starts,
and on completion becomes `success` or `error` according to the result when
no request is queued (or `syncing` when a queued exchange starts
immediately); it never returns to `idle` after a completion — the next
exchange transitions directly from `success`/`error` to `syncing`. -/
theorem sync_status_machine (s : SyncState) (rid : Nat)
    (res : Except SyncError ServerResponse) :
    (s.isSyncInProgress = false → (syncWithServer rid s).syncStatus = .syncing) ∧
    (s.syncQueue = [] → (completeSync res s).syncStatus =
      (match res with
       | .ok _ => SyncStatus.success
       | .error _ => SyncStatus.error)) ∧
    (∀ r rest, s.syncQueue = r :: rest →
      (completeSync res s).syncStatus = .syncing) ∧
    (completeSync res s).syncStatus ≠ .idle := by
  obtain ⟨tk, pj, pd, st, ls, ip, q, ex⟩ := s
  refine ⟨?_, ?_, ?_, ?_⟩
  · intro hip
    simp only at hip
    subst hip
    simp [syncWithServer, performSyncStart]
  · intro hq
    simp only at hq
    subst hq
    cases res with
    | ok resp =>
      simp [completeSync, applySyncResult, processNextQueuedSync, updateLocalData]
    | error err =>
      simp [completeSync, applySyncResult, processNextQueuedSync]
  · intro r rest hq
    simp only at hq
    subst hq
    cases res with
    | ok resp =>
      simp [completeSync, applySyncResult, processNextQueuedSync,
        performSyncStart, updateLocalData]
    | error err =>
      simp [completeSync, applySyncResult, processNextQueuedSync,
        performSyncStart]
  · cases q with
    | nil =>
      cases res with
      | ok resp =>
        simp [completeSync, applySyncResult, processNextQueuedSync, updateLocalData]
      | error err =>
        simp [completeSync, applySyncResult, processNextQueuedSync]
    | cons r rest =>
      cases res with
      | ok resp =>
        simp [completeSync, applySyncResult, processNextQueuedSync,
          performSyncStart, updateLocalData]
      | error err =>
        simp [completeSync, applySyncResult, processNextQueuedSync,
          performSyncStart]

/-- Witness for C5's amended theorem at concrete states. -/
theorem sync_status_machine_witness :
    (syncWithServer 3 sampleIdleState).syncStatus = .syncing ∧
    (completeSync (.error sampleError) sampleBusyStateNoQueue).syncStatus
        = .error ∧
    (completeSync (.error sampleError) sampleBusyState).syncStatus = .syncing :=
  ⟨(sync_status_machine sampleIdleState 3 (.error sampleError)).1 rfl,
   (sync_status_machine sampleBusyStateNoQueue 3 (.error sampleError)).2.1 rfl,
   (sync_status_machine sampleBusyState 3 (.error sampleError)).2.2.1 7 [] rfl⟩

/-- C2: the merge step of `updateLocalData` replaces the local task
(resp. project) with the same id by the server copy unconditionally, inserts
server entities with no local match (both: the merged entry for a payload id
is exactly the server copy), leaves every local entity whose id is not in
`serverChanges` untouched, and the merged entry for a payload id does not
depend on the prior local state (merge determinism). -/
theorem updateLocalData_remote_wins (s s2 : SyncState) (sc : ServerChanges)
    (k : String) (t : Task) (p : Project) :
    ((sc.tasks.map Task.id).Nodup → t ∈ sc.tasks → t.id = k →
      lookupEntity Task.id (updateLocalData sc s).tasks k = some t) ∧
    ((∀ x ∈ sc.tasks, x.id ≠ k) → (s.tasks.map Task.id).Nodup →
      lookupEntity Task.id (updateLocalData sc s).tasks k
        = lookupEntity Task.id s.tasks k) ∧
    ((∃ x ∈ sc.tasks, x.id = k) →
      lookupEntity Task.id (updateLocalData sc s).tasks k
        = lookupEntity Task.id (updateLocalData sc s2).tasks k) ∧
    ((sc.projects.map Project.id).Nodup → p ∈ sc.projects → p.id = k →
      lookupEntity Project.id (updateLocalData sc s).projects k = some p) ∧
    ((∀ x ∈ sc.projects, x.id ≠ k) → (s.projects.map Project.id).Nodup →
      lookupEntity Project.id (updateLocalData sc s).projects k
        = lookupEntity Project.id s.projects k) ∧
    ((∃ x ∈ sc.projects, x.id = k) →
      lookupEntity Project.id (updateLocalData sc s).projects k
        = lookupEntity Project.id (updateLocalData sc s2).projects k) :=
  ⟨(mergeEntities_spec Task.id s.tasks s2.tasks sc.tasks k t).1,
   (mergeEntities_spec Task.id s.tasks s2.tasks sc.tasks k t).2.1,
   (mergeEntities_spec Task.id s.tasks s2.tasks sc.tasks k t).2.2,
   (mergeEntities_spec Project.id s.projects s2.projects sc.projects k p).1,
   (mergeEntities_spec Project.id s.projects s2.projects sc.projects k p).2.1,
   (mergeEntities_spec Project.id s.projects s2.projects sc.projects k p).2.2⟩

/-- Witness for C2: concrete merge of a server payload over two different
local states — overwrite of id `"b"`, untouched id `"a"`, and agreement on
payload id `"c"` across local states. -/
theorem updateLocalData_remote_wins_witness :
    lookupEntity Task.id
      (updateLocalData sampleResponse.serverChanges sampleIdleState).tasks "b"
        = some taskBServer ∧
    lookupEntity Task.id
      (updateLocalData sampleResponse.serverChanges sampleIdleState).tasks "a"
        = lookupEntity Task.id sampleIdleState.tasks "a" ∧
    lookupEntity Task.id
      (updateLocalData sampleResponse.serverChanges sampleIdleState).tasks "c"
        = lookupEntity Task.id
            (updateLocalData sampleResponse.serverChanges initState).tasks "c" :=
  ⟨(updateLocalData_remote_wins sampleIdleState initState
      sampleResponse.serverChanges "b" taskBServer projectP).1
      (by decide) (by decide) (by decide),
   (updateLocalData_remote_wins sampleIdleState initState
      sampleResponse.serverChanges "a" taskBServer projectP).2.1
      (by decide) (by decide),
   (updateLocalData_remote_wins sampleIdleState initState
      sampleResponse.serverChanges "c" taskBServer projectP).2.2.1
      (by decide)⟩

/-- C4: clearing confirmed changes is idempotent, and it removes exactly the
pending mutations whose embedded entity id belongs to the confirmed-id set
(tasks union projects) built from `clientChangesConfirmed`. -/
theorem clearConfirmedChanges_idempotent (c : ClientChangesConfirmed)
    (pending : List PendingChange) :
    clearConfirmedChanges c (clearConfirmedChanges c pending)
        = clearConfirmedChanges c pending ∧
    (∀ ch, ch ∈ clearConfirmedChanges c pending ↔
        ch ∈ pending ∧ ch.data.entityId ∉ confirmedIdSet c) := by
  constructor
  · unfold clearConfirmedChanges
    rw [List.filter_filter]
    simp
  · intro ch
    unfold clearConfirmedChanges
    rw [List.mem_filter]
    simp [List.contains, List.elem_iff]

/-- Witness for C4: concrete double clear and exact-removal check. -/
theorem clearConfirmedChanges_idempotent_witness :
    clearConfirmedChanges sampleConfirmed
        (clearConfirmedChanges sampleConfirmed [changeA, changeB, changeDelP])
      = clearConfirmedChanges sampleConfirmed [changeA, changeB, changeDelP] ∧
    (changeA ∈ clearConfirmedChanges sampleConfirmed [changeA, changeB, changeDelP] ↔
      changeA ∈ [changeA, changeB, changeDelP] ∧
        changeA.data.entityId ∉ confirmedIdSet sampleConfirmed) :=
  ⟨(clearConfirmedChanges_idempotent sampleConfirmed [changeA, changeB, changeDelP]).1,
   (clearConfirmedChanges_idempotent sampleConfirmed [changeA, changeB, changeDelP]).2 changeA⟩

/-- C6 counterexample: after a failed load of a corrupted tasks value the
corrupted key is NOT cleared — the store is returned unchanged and the key
still holds the corrupted value. -/
theorem loadFromStorage_no_clear_counterexample :
    (loadFromStorage "u1" corruptStore initState).2 = corruptStore ∧
    storeGet (loadFromStorage "u1" corruptStore initState).2 (tasksKey "u1")
        = some (.corrupt "corrupted-json") ∧
    (loadFromStorage "u1" corruptStore initState).1 = initState := by
  refine ⟨rfl, ?_, rfl⟩
  rfl

/-- C6 (amended): a corrupted stored value under the tasks or projects key is
caught — `loadFromStorage` returns with the service state unchanged (so at
startup the caller still sees the empty default collections) and the store
untouched; the corrupted key is NOT cleared. -/
theorem loadFromStorage_corrupt_caught (userId : String) (st : Store)
    (s : SyncState) (raw : String) :
    (storeGet st (tasksKey userId) = some (.corrupt raw) →
      loadFromStorage userId st s = (s, st)) ∧
    (storeGet st (projectsKey userId) = some (.corrupt raw) →
      loadFromStorage userId st s = (s, st)) ∧
    (storeGet st (tasksKey userId) = some (.corrupt raw) →
      (loadFromStorage userId st initState).1.tasks = [] ∧
      (loadFromStorage userId st initState).1.projects = []) := by
  have htasks : ∀ s' : SyncState, storeGet st (tasksKey userId) = some (.corrupt raw) →
      loadFromStorage userId st s' = (s', st) := by
    intro s' h
    unfold loadFromStorage readTasks
    rw [h]
  refine ⟨htasks s, ?_, ?_⟩
  · intro h
    unfold loadFromStorage readTasks readProjects
    rw [h]
    cases hT : storeGet st (tasksKey userId) with
    | none => rfl
    | some v => cases v <;> rfl
  · intro h
    rw [htasks initState h]
    exact ⟨rfl, rfl⟩

/-- Witness for C6's amended theorem at the concrete corrupted store. -/
theorem loadFromStorage_corrupt_caught_witness :
    loadFromStorage "u1" corruptStore sampleIdleState
        = (sampleIdleState, corruptStore) ∧
    (loadFromStorage "u1" corruptStore initState).1.tasks = [] :=
  ⟨(loadFromStorage_corrupt_caught "u1" corruptStore sampleIdleState
      "corrupted-json").1 rfl,
   ((loadFromStorage_corrupt_caught "u1" corruptStore sampleIdleState
      "corrupted-json").2.2 rfl).1⟩

/-- C7: `addTask` and `addProject` raise a hard error exactly when no
authenticated user is present; with a user they synchronously return the
created entity carrying the user's id, the client-generated id and fresh
equal `createdAt`/`updatedAt` timestamps, append it to the Entity Cache, and
append a create mutation to the Mutation Log. -/
theorem add_requires_auth (user : Option User) (u : User) (nowMs : Nat)
    (randFrac : String) (tf : TaskFields) (pf : ProjectFields) (s : SyncState) :
    (addTask none nowMs randFrac tf s
        = .error "User must be authenticated to add tasks") ∧
    (addProject none nowMs randFrac pf s
        = .error "User must be authenticated to add projects") ∧
    ((∃ msg, addTask user nowMs randFrac tf s = .error msg) ↔ user = none) ∧
    ((∃ msg, addProject user nowMs randFrac pf s = .error msg) ↔ user = none) ∧
    (addTask (some u) nowMs randFrac tf s
        = .ok (mkNewTask u nowMs randFrac tf,
          { s with
            tasks := s.tasks ++ [mkNewTask u nowMs randFrac tf]
            pendingChanges := s.pendingChanges ++
              [{ type := .task, action := .create,
                 data := .taskEntity (mkNewTask u nowMs randFrac tf),
                 timestamp := (nowMs : Int) }] })) ∧
    (addProject (some u) nowMs randFrac pf s
        = .ok (mkNewProject u nowMs randFrac pf,
          { s with
            projects := s.projects ++ [mkNewProject u nowMs randFrac pf]
            pendingChanges := s.pendingChanges ++
              [{ type := .project, action := .create,
                 data := .projectEntity (mkNewProject u nowMs randFrac pf),
                 timestamp := (nowMs : Int) }] })) ∧
    ((mkNewTask u nowMs randFrac tf).userId = u.id ∧
     (mkNewTask u nowMs randFrac tf).id = generateId nowMs randFrac ∧
     (mkNewTask u nowMs randFrac tf).createdAt = (nowMs : Int) ∧
     (mkNewTask u nowMs randFrac tf).updatedAt = (nowMs : Int)) ∧
    ((mkNewProject u nowMs randFrac pf).userId = u.id ∧
     (mkNewProject u nowMs randFrac pf).id = generateId nowMs randFrac ∧
     (mkNewProject u nowMs randFrac pf).createdAt = (nowMs : Int) ∧
     (mkNewProject u nowMs randFrac pf).updatedAt = (nowMs : Int)) := by
  refine ⟨rfl, rfl, ?_, ?_, rfl, rfl, ⟨rfl, rfl, rfl, rfl⟩, ⟨rfl, rfl, rfl, rfl⟩⟩
  · cases user with
    | none => simp [addTask]
    | some u2 => simp [addTask]
  · cases user with
    | none => simp [addProject]
    | some u2 => simp [addProject]

/-- Witness for C7 at a concrete user, fields and state. -/
theorem add_requires_auth_witness :
    addTask none 1700000000000 "k7q3" sampleTaskFields sampleIdleState
        = .error "User must be authenticated to add tasks" ∧
    ((∃ msg, addTask (some sampleUser) 1700000000000 "k7q3" sampleTaskFields
        sampleIdleState = .error msg) ↔
      (some sampleUser : Option User) = none) ∧
    (mkNewTask sampleUser 1700000000000 "k7q3" sampleTaskFields).userId
        = sampleUser.id :=
  ⟨(add_requires_auth (some sampleUser) sampleUser 1700000000000 "k7q3"
      sampleTaskFields sampleProjectFields sampleIdleState).1,
   (add_requires_auth (some sampleUser) sampleUser 1700000000000 "k7q3"
      sampleTaskFields sampleProjectFields sampleIdleState).2.2.1,
   (add_requires_auth (some sampleUser) sampleUser 1700000000000 "k7q3"
      sampleTaskFields sampleProjectFields sampleIdleState).2.2.2.2.2.2.1.1⟩

/-- C8: `getStatistics` counts the total, the completed, the active (not
completed), the overdue (not completed with a due date strictly before
start-of-today) and the due-today (not completed with a due date in
[start-of-today, start-of-tomorrow)) tasks, and yields
`{total := 3, completed := 1, active := 2, overdue := 1, dueToday := 1}` on
the yesterday/today/completed-yesterday example. -/
theorem getStatistics_correct (tasks : List Task) (now : Int) :
    (getStatistics tasks now).total = tasks.length ∧
    (getStatistics tasks now).completed
        = tasks.countP (fun t => t.completed) ∧
    (getStatistics tasks now).active
        = tasks.countP (fun t => !t.completed) ∧
    (getStatistics tasks now).overdue
        = tasks.countP (fun t => !t.completed &&
            (match t.dueDate with
             | some d => decide (d < startOfDay now)
             | none => false)) ∧
    (getStatistics tasks now).dueToday
        = tasks.countP (fun t => !t.completed &&
            (match t.dueDate with
             | some d => decide (startOfDay now ≤ d ∧ d < startOfDay now + msPerDay)
             | none => false)) ∧
    getStatistics statsExampleTasks statsNow
        = { total := 3, completed := 1, active := 2, overdue := 1, dueToday := 1 } := by
  refine ⟨rfl, ?_, ?_, ?_, ?_, by decide⟩
  · exact (List.countP_eq_length_filter _ _).symm
  · exact (List.countP_eq_length_filter _ _).symm
  · rw [List.countP_eq_length_filter]
    show (tasks.filter (fun t => !t.completed && dueBefore t.dueDate (startOfDay now))).length = _
    congr 1
    apply List.filter_congr
    intro t _
    cases hd : t.dueDate with
    | none => simp [dueBefore, hd]
    | some d => simp [dueBefore, hd]
  · rw [List.countP_eq_length_filter]
    show (tasks.filter (fun t => !t.completed && dueSameDay t.dueDate (startOfDay now))).length = _
    congr 1
    apply List.filter_congr
    intro t _
    cases hd : t.dueDate with
    | none => simp [dueSameDay, hd]
    | some d => simp [dueSameDay, hd, sameCalendarDay_startOfDay]

/-- C9 counterexample: two distinct rapid `addTask` calls that observe the
same `Date.now()` millisecond and the same `Math.random()` draw create two
different entities carrying the SAME id (id uniqueness is probabilistic, not
guaranteed), though both do appear in the final snapshot. -/
theorem generateId_collision_counterexample :
    addTask (some sampleUser) 1700000000000 "k7q3" sampleTaskFields initState
        = .ok (cxTask1, cxState1) ∧
    addTask (some sampleUser) 1700000000000 "k7q3" sampleTaskFields2 cxState1
        = .ok (cxTask2, cxState2) ∧
    cxTask1 ≠ cxTask2 ∧
    cxTask1.id = cxTask2.id ∧
    cxTask1 ∈ cxState2.tasks ∧ cxTask2 ∈ cxState2.tasks := by
  refine ⟨rfl, rfl, by decide, rfl, by decide, by decide⟩

/-- C9 (amended): two rapid `addTask` calls both land in the final snapshot,
and their ids are distinct provided the two `Math.random()` draws differ
(with the same `Date.now()` reading); when timestamp and draw coincide the
ids collide, so uniqueness holds only up to the randomness of the id
generator. -/
theorem addTask_distinct_ids (u : User) (n : Nat) (r1 r2 : String)
    (f1 f2 : TaskFields) (s s1 s2 : SyncState) (t1 t2 : Task)
    (h1 : addTask (some u) n r1 f1 s = .ok (t1, s1))
    (h2 : addTask (some u) n r2 f2 s1 = .ok (t2, s2)) :
    t1 ∈ s2.tasks ∧ t2 ∈ s2.tasks ∧ (r1 ≠ r2 → t1.id ≠ t2.id) := by
  simp only [addTask, Except.ok.injEq, Prod.mk.injEq] at h1 h2
  obtain ⟨ht1, hs1⟩ := h1
  obtain ⟨ht2, hs2⟩ := h2
  subst ht1 ht2 hs1 hs2
  refine ⟨by simp, by simp, ?_⟩
  intro hr
  exact generateId_ne_of_ne_randFrac n r1 r2 hr

/-- Witness for C9's amended theorem: two concrete calls with different
random draws. -/
theorem addTask_distinct_ids_witness :
    mkNewTask sampleUser 1700000000000 "k7q3" sampleTaskFields ∈
      (cxState2b).tasks ∧
    (mkNewTask sampleUser 1700000000000 "k7q3" sampleTaskFields).id
      ≠ (mkNewTask sampleUser 1700000000000 "z9aa" sampleTaskFields2).id :=
  ⟨(addTask_distinct_ids sampleUser 1700000000000 "k7q3" "z9aa"
      sampleTaskFields sampleTaskFields2 initState cxState1 cxState2b
      (mkNewTask sampleUser 1700000000000 "k7q3" sampleTaskFields)
      (mkNewTask sampleUser 1700000000000 "z9aa" sampleTaskFields2)
      rfl rfl).1,
   (addTask_distinct_ids sampleUser 1700000000000 "k7q3" "z9aa"
      sampleTaskFields sampleTaskFields2 initState cxState1 cxState2b
      (mkNewTask sampleUser 1700000000000 "k7q3" sampleTaskFields)
      (mkNewTask sampleUser 1700000000000 "z9aa" sampleTaskFields2)
      rfl rfl).2.2 (by decide)⟩

/-- C10: `deleteProject` on a present id reports success, removes exactly the
projects carrying that id, and leaves the tasks collection completely
unchanged — in particular every task keeps its (now dangling) `projectId`
reference; no cascade delete or reference clearing happens.  The only other
effect is the appended delete mutation. -/
theorem deleteProject_frame (s : SyncState) (id : String) (nowMs : Nat)
    (h : s.projects.any (fun p => p.id == id) = true) :
    (deleteProject id nowMs s).1 = true ∧
    (deleteProject id nowMs s).2.tasks = s.tasks ∧
    (deleteProject id nowMs s).2.projects
        = s.projects.filter (fun p => !(p.id == id)) ∧
    (∀ t ∈ s.tasks, t ∈ (deleteProject id nowMs s).2.tasks) ∧
    (∀ t ∈ s.tasks, t.projectId = some id →
      ∃ t2 ∈ (deleteProject id nowMs s).2.tasks, t2 = t ∧ t2.projectId = some id) ∧
    (deleteProject id nowMs s).2.pendingChanges
        = s.pendingChanges ++
          [{ type := .project, action := .delete, data := .idOnly id,
             timestamp := (nowMs : Int) }] := by
  unfold deleteProject
  rw [if_pos h]
  refine ⟨rfl, rfl, rfl, fun t ht => ht, fun t ht hp => ⟨t, ht, rfl, hp⟩, rfl⟩

/-- Witness for C10: deleting the referenced project of `sampleProjState`
leaves the referencing task (and its dangling `projectId`) in place. -/
theorem deleteProject_frame_witness :
    (deleteProject "p" 5 sampleProjState).1 = true ∧
    (deleteProject "p" 5 sampleProjState).2.tasks = sampleProjState.tasks ∧
    (deleteProject "p" 5 sampleProjState).2.projects
        = sampleProjState.projects.filter (fun p => !(p.id == "p")) :=
  ⟨(deleteProject_frame sampleProjState "p" 5 (by decide)).1,
   (deleteProject_frame sampleProjState "p" 5 (by decide)).2.1,
   (deleteProject_frame sampleProjState "p" 5 (by decide)).2.2.1⟩

end XTodo
